import Mathlib

/-!
# Verification of the SEAL document encryption pipeline (epoch_one)

Shallow embedding of the Python modules `api/encrypt_document.py`,
`api/encrypt_and_upload.py`, `api/decrypt_document.py` and
`api/upload_contract.py`.

Python strings are modelled as Lean `String` (a sequence of code points,
accessed through `String.data` where character-level work is needed);
Python `bytes` as `List Nat` with every element < 256; Python `dict`
request/response payloads as structures whose optional keys are `Option`
fields; a raised Python exception as the `Except.error` branch of an
`Except PyErr _` result.  External effects (environment variables, the
Node.js subprocess, the Walrus blob store, HTTP calls) are passed in as
explicit environment records, so each handler is a pure function of its
request and its environment.
-/

/-- A raised Python exception, by kind and message. -/
inductive PyErr : Type
  | valueError (msg : String)
  | exception (msg : String)
  deriving DecidableEq, Repr

/-- Python truthiness of an optional string (`if not s:` is taken when the
value is `None` or the empty string). -/
def pyTruthyOptStr : Option String → Bool
  | none => false
  | some s => s ≠ ""

/-! ## Byte- and string-level primitives

Models of the Python library operations used by the pipeline:
`bytes.fromhex`, `str.zfill`, `str.encode('utf-8')`, `struct.pack("<I", -)`,
`sep in s`, `s.split(sep)` and `s.strip()`. -/

/-- Value of one hexadecimal digit (`bytes.fromhex` accepts both cases);
`none` for a non-hex character. -/
def hexVal (c : Char) : Option Nat :=
  if '0' ≤ c ∧ c ≤ '9' then some (c.toNat - '0'.toNat)
  else if 'a' ≤ c ∧ c ≤ 'f' then some (c.toNat - 'a'.toNat + 10)
  else if 'A' ≤ c ∧ c ≤ 'F' then some (c.toNat - 'A'.toNat + 10)
  else none

/-- ASCII whitespace as skipped by CPython's `bytes.fromhex`
(`Py_ISSPACE`: space, tab, line feed, vertical tab, form feed, carriage
return). -/
def pyIsSpace (c : Char) : Bool :=
  c = ' ' ∨ c = '\t' ∨ c = '\n' ∨ c = '\x0b' ∨ c = '\x0c' ∨ c = '\r'

/-- `bytes.fromhex` on a list of characters, following CPython's decoding
loop (3.11+ semantics): runs of ASCII whitespace are skipped between byte
pairs, and each byte then needs two immediately adjacent hex digits — a
non-hex character, whitespace between the two digits of a pair, or a
trailing odd digit raises `ValueError` (modelled as `none`). -/
def hexPairsToBytes : List Char → Option (List Nat)
  | [] => some []
  | c :: rest =>
      if pyIsSpace c then hexPairsToBytes rest
      else
        match rest with
        | [] => none
        | c₂ :: rest₂ => do
            let top ← hexVal c
            let bot ← hexVal c₂
            let tail ← hexPairsToBytes rest₂
            pure ((16 * top + bot) :: tail)

/-- The strings `bytes.fromhex` accepts: interleavings of ASCII-whitespace
runs and immediately adjacent hex-digit pairs. -/
inductive FromHexAccepted : List Char → Prop
  | nil : FromHexAccepted []
  | space {c : Char} {rest : List Char} :
      pyIsSpace c = true → FromHexAccepted rest → FromHexAccepted (c :: rest)
  | pair {c₁ c₂ : Char} {rest : List Char} :
      (hexVal c₁).isSome → (hexVal c₂).isSome →
      FromHexAccepted rest → FromHexAccepted (c₁ :: c₂ :: rest)

/-- `str.zfill(width)` on a list of characters: left-pad with `'0'` up to
`width`, keeping a leading sign character in front of the padding. -/
def zfillChars (cs : List Char) (width : Nat) : List Char :=
  if cs.length ≥ width then cs
  else
    let pad := List.replicate (width - cs.length) '0'
    match cs with
    | [] => pad
    | c :: rest => if c = '+' ∨ c = '-' then c :: (pad ++ rest) else pad ++ (c :: rest)

/-- UTF-8 encoding of one code point (`str.encode('utf-8')`, per character). -/
def utf8CharBytes (c : Char) : List Nat :=
  let n := c.toNat
  if n < 128 then [n]
  else if n < 2048 then [192 + n / 64, 128 + n % 64]
  else if n < 65536 then [224 + n / 4096, 128 + (n / 64) % 64, 128 + n % 64]
  else [240 + n / 262144, 128 + (n / 4096) % 64, 128 + (n / 64) % 64, 128 + n % 64]

/-- `str.encode('utf-8')`. -/
def pyUtf8 (s : String) : List Nat :=
  s.data.flatMap utf8CharBytes

/-- `struct.pack("<I", n)`: four little-endian bytes; `struct.error`
(modelled as `none`) when the argument does not fit in 32 bits. -/
def packU32LE (n : Nat) : Option (List Nat) :=
  if n < 4294967296 then
    some [n % 256, n / 256 % 256, n / 65536 % 256, n / 16777216 % 256]
  else none

/-- Scanner for Python `s.split(sep)` with a non-empty separator: splits at
each non-overlapping occurrence, left to right.  The fuel argument (the
input length at the top call) only drives structural recursion; every step
consumes at least one character. -/
def pySplitAux (sep : List Char) : Nat → List Char → List Char → List (List Char)
  | _, [], acc => [acc.reverse]
  | 0, s, acc => [acc.reverse ++ s]
  | fuel + 1, c :: rest, acc =>
      if sep.isPrefixOf (c :: rest) then
        acc.reverse :: pySplitAux sep fuel (List.drop (sep.length - 1) rest) []
      else
        pySplitAux sep fuel rest (c :: acc)

/-- Python `s.split(sep)` (the pipeline only calls it with non-empty
literal separators, for which Python does not raise). -/
def pySplit (s sep : String) : List String :=
  if sep.data = [] then [s]
  else (pySplitAux sep.data s.data.length s.data []).map String.mk

/-- Python `s.strip()`: drop whitespace from both ends. -/
def pyStrip (s : String) : String :=
  String.mk (((s.data.dropWhile Char.isWhitespace).reverse.dropWhile
    Char.isWhitespace).reverse)

/-- Python `sub in s` for a non-empty pattern `sub`: true exactly when
splitting on the pattern yields more than one part. -/
def pyIn (sub s : String) : Bool :=
  (pySplit s sub).length ≥ 2

/-- Python `s.split(sep)[i]`, defaulting to `""` out of range (the pipeline
only indexes after establishing `sep in s`). -/
def pySplitIdx (s sep : String) (i : Nat) : String :=
  ((pySplit s sep).get? i).getD ""

/-- Failure-propagating traversal: the shape of a Python `for` loop that
appends one computed block per element and lets any raised exception
escape. -/
def traverseOption {α β : Type} (f : α → Option β) : List α → Option (List β)
  | [] => some []
  | a :: as => do
      let b ← f a
      let bs ← traverseOption f as
      pure (b :: bs)

/-! ## `api/encrypt_document.py` — `create_bcs_identity` -/

/-- The metadata dictionary returned next to the identity bytes by
`create_bcs_identity`. -/
structure SignerInfo where
  contract_id : String
  signer_count : Nat
  format : String
  deriving DecidableEq, Repr

/-- The conversion of the contract id to bytes at the top of
`create_bcs_identity`: hex-decode when `0x`-prefixed (a raised `ValueError`
from `bytes.fromhex` is `none`), otherwise UTF-8 encode. -/
def contract_id_to_bytes (contract_id : String) : Option (List Nat) :=
  if "0x".data.isPrefixOf contract_id.data then
    hexPairsToBytes (contract_id.data.drop 2)
  else
    some (pyUtf8 contract_id)

/-- The `0x`-stripping applied to each address in the loop of
`create_bcs_identity` (`if addr.startswith("0x"): addr = addr[2:]`). -/
def stripped_addr_chars (addr : String) : List Char :=
  if "0x".data.isPrefixOf addr.data then addr.data.drop 2 else addr.data

/-- The per-address body of the loop in `create_bcs_identity`: strip an
optional `0x` prefix, zero-fill to 64 characters, hex-decode
(`bytes.fromhex(addr.zfill(64))`). -/
def addr_to_bytes (addr : String) : Option (List Nat) :=
  hexPairsToBytes (zfillChars (stripped_addr_chars addr) 64)

/-- `create_bcs_identity(contract_id, signer_addresses)`: the identity bytes
are the 4-byte little-endian length of the contract-id bytes, the
contract-id bytes, the 4-byte little-endian address count, then the
hex-decoding of each zero-filled address.  `none` models a raised
exception (invalid hex, or a length field out of `u32` range). -/
def create_bcs_identity (contract_id : String) (signer_addresses : List String) :
    Option (List Nat × SignerInfo) := do
  let contract_id_bytes ← contract_id_to_bytes contract_id
  let lenPrefix ← packU32LE contract_id_bytes.length
  let countPrefix ← packU32LE signer_addresses.length
  let addrBlocks ← traverseOption addr_to_bytes signer_addresses
  pure (lenPrefix ++ contract_id_bytes ++ countPrefix ++ addrBlocks.flatten,
    { contract_id := contract_id,
      signer_count := signer_addresses.length,
      format := "BCS [vector<u8> contract_id][vector<address> signer_addresses]" })

/-! ## Claim-side identity format (C1)

A second codec written from the wording of the spec sentence, to be compared
with `create_bcs_identity` (which is translated from the source). -/

/-- Follows the claim wording, not the source: the value of an address "as
exactly 32 bytes" — its zero-padded hex value, undefined when it does not
fit in 32 bytes. -/
def claim_address32 (addr : String) : Option (List Nat) := do
  let b ← addr_to_bytes addr
  if b.length = 32 then pure b else none

/-- Follows the claim wording, not the source: the identity is the
contract-id bytes preceded by their length as a fixed-width (4-byte)
little-endian integer, followed by the number of addresses as a fixed-width
little-endian integer, followed by each address as exactly 32 bytes with no
per-address length prefix. -/
def claim_bcs_identity (contract_id : String) (signer_addresses : List String) :
    Option (List Nat) := do
  let cid ← contract_id_to_bytes contract_id
  let lenPrefix ← packU32LE cid.length
  let countPrefix ← packU32LE signer_addresses.length
  let blocks ← traverseOption claim_address32 signer_addresses
  pure (lenPrefix ++ cid ++ countPrefix ++ blocks.flatten)

/-! ## `api/encrypt_document.py` — `process_encryption` -/

/-- A Python value that is either `str` or `bytes` (the two shapes
`documentContent` takes). -/
inductive PyContent : Type
  | str (s : String)
  | bytes (b : List Nat)
  deriving DecidableEq, Repr

/-- Environment of `process_encryption`: the `NEXT_PUBLIC_SEAL_PACKAGE_ID`
environment variable, the key-server set behind `get_key_server_ids()`
(whose source body returns mock values standing for a query of that set
from Sui), and the base64/sha256 library primitives. -/
structure EncryptEnv where
  sealPackageId : Option String
  keyServerIds : List String
  b64decode : PyContent → Option (List Nat)
  b64encode : List Nat → String
  sha256hex : List Nat → String

/-- `get_key_server_ids()`: the key-server id list (mocked in the source as
two fixed ids, standing for an environment-supplied set). -/
def get_key_server_ids (env : EncryptEnv) : List String :=
  env.keyServerIds

/-- Request body of the encryption endpoint; absent dict keys are `none`
(`isBase64` is read with `data.get('isBase64', False)`, so an absent key is
already collapsed to `false`). -/
structure EncryptRequest where
  contractId : Option String := none
  documentContent : Option PyContent := none
  isBase64 : Bool := false
  signerAddresses : Option (List String) := none
  signerPublicKeys : Option (List String) := none

/-- The signer-address fallback in `process_encryption`:
`signer_addresses = data.get('signerAddresses', [])`, replaced by
`data['signerPublicKeys']` when it is empty and that key is present. -/
def effective_signer_addresses (data : EncryptRequest) : List String :=
  match data.signerAddresses.getD [], data.signerPublicKeys with
  | [], some pks => pks
  | sa, _ => sa

/-- The content-to-bytes step shared by `process_encryption` and
`process_encrypt_and_upload`: base64-decode when `isBase64` (raising
`ValueError` on failure), else UTF-8 encode a `str` and pass `bytes`
through. -/
def content_to_bytes (b64decode : PyContent → Option (List Nat))
    (is_base64 : Bool) (document_content : PyContent) : Except PyErr (List Nat) :=
  if is_base64 then
    match b64decode document_content with
    | some b => .ok b
    | none => .error (.valueError "Invalid base64 content")
  else
    match document_content with
    | .str s => .ok (pyUtf8 s)
    | .bytes b => .ok b

/-- Response dictionary of `process_encryption`; keys the source does not
set in a given branch are `none`. -/
structure EncryptionResponse where
  encrypted : Bool
  message : Option String := none
  encryptedDocument : Option String := none
  symmetricKey : Option String := none
  keyServerIds : Option (List String) := none
  signerAddresses : Option (List String) := none
  signerInfo : Option SignerInfo := none
  deriving DecidableEq, Repr

/-- `process_encryption(data)`: field check, package-id configuration check,
content decoding, key-server check, BCS identity, then the (placeholder)
encryption step.  The caught-exception message `f'BCS identity error:
{str(e)}'` is modelled without the interpolated detail. -/
def process_encryption (env : EncryptEnv) (data : EncryptRequest) :
    Except PyErr EncryptionResponse :=
  match data.contractId, data.documentContent with
  | some contract_id, some document_content =>
    let signer_addresses := effective_signer_addresses data
    if ¬ pyTruthyOptStr env.sealPackageId then
      .ok { encrypted := false, message := some "SEAL encryption not configured" }
    else
      match content_to_bytes env.b64decode data.isBase64 document_content with
      | .error e => .error e
      | .ok content_bytes =>
        let key_server_ids := get_key_server_ids env
        if key_server_ids = [] then
          .ok { encrypted := false, message := some "No SEAL key servers available" }
        else
          match create_bcs_identity contract_id signer_addresses with
          | none =>
            .ok { encrypted := false, message := some "BCS identity error" }
          | some (identity_bytes, signer_info) =>
            if identity_bytes = [] then
              .ok { encrypted := false,
                    message := some "Failed to create BCS identity for SEAL encryption" }
            else
              .ok { encrypted := true,
                    encryptedDocument := some (env.b64encode content_bytes),
                    symmetricKey := some ("mock_symmetric_key_" ++
                      String.mk ((env.sha256hex content_bytes).data.take 16)),
                    keyServerIds := some key_server_ids,
                    signerAddresses := some signer_addresses,
                    signerInfo := some signer_info }
  | _, _ =>
    .error (.valueError "Missing required fields: contractId and documentContent are required")

/-! ## `api/encrypt_and_upload.py` — `process_encrypt_and_upload` -/

/-- The message of a raised exception (`str(e)`). -/
def pyErrMsg : PyErr → String
  | .valueError m => m
  | .exception m => m

/-- Python `x or default` on an optional string (the default is used when
the value is `None` or empty). -/
def pyOrStr (x : Option String) (default : String) : String :=
  match x with
  | some s => if s = "" then default else s
  | none => default

/-- The configuration dictionary written for `seal_operations.js` (the
`documentPath` temp-file name, a filesystem artifact, is not modelled). -/
structure SealConfig where
  operation : String
  documentContentBase64 : String
  contractId : String
  signerAddresses : List String
  adminPrivateKey : String
  sealPackageId : String
  allowlistPackageId : Option String
  network : String
  deriving DecidableEq, Repr

/-- Environment of `process_encrypt_and_upload`: the module-level
environment variables, the base64 primitives, and the SEAL operation
itself — the Node.js subprocess in local mode or the HTTP call to the
Node.js function in production, either way yielding the operation's stdout
text or a raised exception. -/
structure SealOpsEnv where
  sealPackageId : Option String
  adminPrivateKey : Option String
  allowlistPackageId : Option String
  network : String
  b64decode : PyContent → Option (List Nat)
  b64encode : List Nat → String
  runSealOperation : SealConfig → Except String String

/-- The four object ids scraped from the SEAL operation's output lines;
all start as `None`. -/
structure ExtractedIds where
  blobId : Option String := none
  allowlistId : Option String := none
  documentId : Option String := none
  capId : Option String := none
  deriving DecidableEq, Repr

/-- One iteration of the id-scraping loop over the output lines: the first
matching marker of the `if`/`elif` chain assigns its field from the text
after the separator, stripped. -/
def extractLine (st : ExtractedIds) (line : String) : ExtractedIds :=
  if pyIn "Blob ID:" line then
    { st with blobId := some (pyStrip (pySplitIdx line "Blob ID:" 1)) }
  else if pyIn "Allowlist ID:" line then
    { st with allowlistId := some (pyStrip (pySplitIdx line "Allowlist ID:" 1)) }
  else if pyIn "Document ID:" line ∨ pyIn "Document ID (hex):" line then
    { st with documentId := some (pyStrip (pySplitIdx line ":" 1)) }
  else if pyIn "Capability ID:" line ∨ pyIn "Cap ID:" line then
    { st with capId := some (pyStrip (pySplitIdx line ":" 1)) }
  else st

/-- The whole id-scraping loop (`for line in output_lines: ...`). -/
def extract_ids (output_lines : List String) : ExtractedIds :=
  output_lines.foldl extractLine {}

/-- Request body of the encrypt-and-upload endpoint. -/
structure EncUploadRequest where
  contractId : Option String := none
  documentContent : Option PyContent := none
  isBase64 : Bool := false
  signerAddresses : Option (List String) := none

/-- Response dictionary of `process_encrypt_and_upload`; the
not-configured branch sets only `encrypted` and `message`. -/
structure EncUploadResponse where
  encrypted : Bool
  message : Option String := none
  contractId : Option String := none
  blobId : Option String := none
  allowlistId : Option String := none
  documentId : Option String := none
  capId : Option String := none
  raw_success : Option Bool := none
  deriving DecidableEq, Repr

/-- The `config` dictionary built by `process_encrypt_and_upload` for the
SEAL operation. -/
def build_seal_config (env : SealOpsEnv) (contract_id : String)
    (content_bytes : List Nat) (signer_addresses : List String) : SealConfig :=
  { operation := "encrypt",
    documentContentBase64 := env.b64encode content_bytes,
    contractId := contract_id,
    signerAddresses := signer_addresses,
    adminPrivateKey := pyOrStr env.adminPrivateKey "admin_key_placeholder",
    sealPackageId := pyOrStr env.sealPackageId "seal_test_package_id",
    allowlistPackageId := env.allowlistPackageId,
    network := env.network }

/-- `process_encrypt_and_upload(data)`: field check, package-id
configuration check, content decoding, run of the SEAL Node.js operation
(an exception there is re-raised as `SEAL Encryption Failed: ...`), then
the success response built from the ids scraped out of the operation's
stdout. -/
def process_encrypt_and_upload (env : SealOpsEnv) (data : EncUploadRequest) :
    Except PyErr EncUploadResponse :=
  match data.contractId, data.documentContent, data.signerAddresses with
  | some contract_id, some document_content, some signer_addresses =>
    if ¬ pyTruthyOptStr env.sealPackageId then
      .ok { encrypted := false, message := some "SEAL encryption not configured" }
    else
      match content_to_bytes env.b64decode data.isBase64 document_content with
      | .error e => .error e
      | .ok content_bytes =>
        match env.runSealOperation
            (build_seal_config env contract_id content_bytes signer_addresses) with
        | .error e => .error (.exception ("SEAL Encryption Failed: " ++ e))
        | .ok stdout_data =>
          let output_lines := pySplit stdout_data "\n"
          let ids := extract_ids output_lines
          .ok { contractId := some contract_id,
                encrypted := true,
                blobId := ids.blobId,
                allowlistId := ids.allowlistId,
                documentId := ids.documentId,
                capId := ids.capId,
                raw_success := some true,
                message := some "SEAL encryption succeeded" }
  | _, _, _ =>
    .error (.valueError
      "Missing required fields: contractId, documentContent, and signerAddresses are required")

/-! ## `api/decrypt_document.py` — `decrypt_document` and `process_decrypt` -/

/-- Interpolation of an `Optional[str]` into the generated script
(an f-string renders Python `None` as the text `None`). -/
def pyReprOptStr : Option String → String
  | none => "None"
  | some s => s

/-- The session-authorization fragment of the generated decryption script:
either a `SessionKey` bound to the user address with the caller's personal
message signature, or (testing only) a keypair built from the raw private
key. -/
inductive SessionAuth : Type
  | signatureSession (userAddress signature : String)
  | privateKeyKeypair (userPrivateKey : String)
  deriving DecidableEq, Repr

/-- The authorization-path selection in `decrypt_document`: a signature
file is written exactly when the signature is truthy (non-empty), and the
script's auth fragment uses the signature session when that file exists,
the private-key keypair otherwise. -/
def decrypt_document_auth (user_address signature : String)
    (user_private_key : Option String) : SessionAuth :=
  let signature_file_created : Bool := signature ≠ ""
  if signature_file_created then
    .signatureSession user_address signature
  else
    .privateKeyKeypair (pyReprOptStr user_private_key)

/-- Environment of the decryption endpoint: the package id, the Walrus
download, the generated Node.js decryption script run (keyed by the ids
and auth fragment baked into it), the read of the decrypted output file,
and base64. -/
structure DecryptEnv where
  sealPackageId : Option String
  download : String → Except String Unit
  runDecrypt : SessionAuth → String → String → Except String Unit
  readDecrypted : Except String (List Nat)
  b64encode : List Nat → String

/-- `decrypt_document(...)`: build the script with the selected auth
fragment and run it; a non-zero exit raises
`ValueError("Failed to decrypt document: <stderr>")`. -/
def decrypt_document (env : DecryptEnv) (user_address signature : String)
    (allowlist_id document_id : String) (user_private_key : Option String) :
    Except PyErr Unit :=
  let sessionAuth := decrypt_document_auth user_address signature user_private_key
  match env.runDecrypt sessionAuth allowlist_id document_id with
  | .ok _ => .ok ()
  | .error stderr => .error (.valueError ("Failed to decrypt document: " ++ stderr))

/-- Request body of the decryption endpoint (`userPrivateKey` is optional,
for testing). -/
structure DecryptRequest where
  blobId : Option String := none
  userAddress : Option String := none
  signature : Option String := none
  allowlistId : Option String := none
  documentId : Option String := none
  userPrivateKey : Option String := none

/-- Response dictionary of `process_decrypt`; the failure branches set no
`decryptedDocument`. -/
structure DecryptResponse where
  decrypted : Bool
  blobId : Option String := none
  decryptedDocument : Option String := none
  documentSize : Option Nat := none
  message : Option String := none
  error : Option String := none
  deriving DecidableEq, Repr

/-- `process_decrypt(data)`: field check, package-id configuration check,
then download → decrypt → read inside one `try`; any exception in those
steps yields the `decrypted: False` dictionary, success yields the
base64-encoded plaintext. -/
def process_decrypt (env : DecryptEnv) (data : DecryptRequest) :
    Except PyErr DecryptResponse :=
  match data.blobId, data.userAddress, data.signature,
        data.allowlistId, data.documentId with
  | some blob_id, some user_address, some signature,
    some allowlist_id, some document_id =>
    if ¬ pyTruthyOptStr env.sealPackageId then
      .ok { decrypted := false, message := some "SEAL decryption not configured" }
    else
      let steps : Except PyErr (List Nat) :=
        match env.download blob_id with
        | .error e => .error (.exception e)
        | .ok _ =>
          match decrypt_document env user_address signature
              allowlist_id document_id data.userPrivateKey with
          | .error e => .error e
          | .ok _ =>
            match env.readDecrypted with
            | .error e => .error (.exception e)
            | .ok content => .ok content
      match steps with
      | .ok decrypted_content =>
        .ok { decrypted := true,
              blobId := some blob_id,
              decryptedDocument := some (env.b64encode decrypted_content),
              documentSize := some decrypted_content.length }
      | .error e =>
        .ok { decrypted := false,
              message := some ("Decryption error: " ++ pyErrMsg e),
              error := some (pyErrMsg e) }
  | _, _, _, _, _ =>
    .error (.valueError
      "Missing required fields: blobId, userAddress, signature, allowlistId, and documentId are required")

/-! ## `api/upload_contract.py` — `process_upload` -/

/-- `blobObject` (or the `alreadyCertified` value) of the raw Walrus upload
response, with its optional `blobId`. -/
structure WalrusBlobObject where
  blobId : Option String := none
  deriving DecidableEq, Repr

/-- Raw Walrus upload response, as far as `process_upload` inspects it:
an optional `alreadyCertified` entry, and an optional
`newlyCreated.blobObject` entry (present only when both keys exist). -/
structure WalrusRawResponse where
  alreadyCertified : Option WalrusBlobObject := none
  newlyCreatedBlobObject : Option WalrusBlobObject := none
  deriving DecidableEq, Repr

/-- The blob-id extraction of `process_upload` (lines checking
`"alreadyCertified" in raw_response` and then
`"newlyCreated" ... "blobObject"`). -/
def extract_blob_id (raw_response : WalrusRawResponse) : Option String :=
  match raw_response.alreadyCertified with
  | some obj => obj.blobId
  | none =>
    match raw_response.newlyCreatedBlobObject with
    | some obj => obj.blobId
    | none => none

/-- Environment of `process_upload`: the nested encrypt-and-upload
environment, sha256, the wallet-address lookup over HTTP (by contract id
or by signer emails; it returns `[]` on any failure), the Walrus client
upload, and the summarized outcome of the contract-metadata PATCH section
(that section cannot raise — every network call in it is wrapped — and
only determines the `databaseUpdated` flag). -/
structure UploadEnv where
  sealOps : SealOpsEnv
  sha256hex : List Nat → String
  fetchWalletAddresses : Option String → Option (List String) → List String
  walrusPut : List Nat → Except String WalrusRawResponse
  databaseUpdated : Bool

/-- Request body of the upload endpoint.  `useSeal` is read with
`data.get('useSeal', True)`; `metadataSigners` is
`data.get('metadata', {}).get('signers', [])`. -/
structure UploadRequest where
  contractId : Option String := none
  contractContent : Option PyContent := none
  isBase64 : Bool := false
  useSeal : Option Bool := none
  signerAddresses : Option (List String) := none
  metadataSigners : List String := []
  context : String := "testnet"
  epochs : Nat := 2
  deletable : Bool := false

/-- Outcome of `process_upload`: the augmented SEAL response, the standard
(unencrypted) upload response, or process termination (`exit(1)` in the
SEAL exception handler). -/
inductive UploadOutcome : Type
  | sealResponse (resp : EncUploadResponse) (hash : String)
      (authorizedWallets : List String) (databaseUpdated : Bool)
  | standardResponse (contractId : String) (hash : String)
      (walrusResponse : WalrusRawResponse) (blobId : Option String)
      (authorizedWallets : List String) (databaseUpdated : Option Bool)
  | processExit (code : Nat)
  deriving DecidableEq, Repr

/-- The standard (non-SEAL) upload tail of `process_upload`: write the
bytes to Walrus (re-raising an upload exception), extract the blob id, and
— when a blob id was found — run the metadata-update section, which sets
`databaseUpdated`.  The standard path re-reads `signerAddresses` from the
request. -/
def standard_upload_tail (env : UploadEnv) (data : UploadRequest)
    (contract_id : String) (contract_content : List Nat) (hash_sha256 : String) :
    Except PyErr UploadOutcome :=
  match env.walrusPut contract_content with
  | .error e => .error (.exception e)
  | .ok raw_response =>
    let blob_id := extract_blob_id raw_response
    let signer_addresses := data.signerAddresses.getD []
    if pyTruthyOptStr blob_id then
      .ok (.standardResponse contract_id hash_sha256 raw_response blob_id
        signer_addresses (some env.databaseUpdated))
    else
      .ok (.standardResponse contract_id hash_sha256 raw_response blob_id
        signer_addresses none)

/-- The signer-address resolution of `process_upload`: the request's
addresses, or — when SEAL is enabled and none were given — a fetch by the
request's signer emails (when present) or by contract id. -/
def resolve_signer_addresses (env : UploadEnv) (data : UploadRequest)
    (contract_id : String) (use_seal : Bool) : List String :=
  let given_addresses := data.signerAddresses.getD []
  if use_seal ∧ given_addresses = [] then
    if data.metadataSigners ≠ [] then
      env.fetchWalletAddresses none (some data.metadataSigners)
    else
      env.fetchWalletAddresses (some contract_id) none
  else given_addresses

/-- The `seal_data` request `process_upload` hands to
`process_encrypt_and_upload` (the content, bytes by this point, is
re-encoded as base64). -/
def upload_seal_request (env : UploadEnv) (contract_id : String)
    (contract_content : List Nat) (signer_addresses : List String) :
    EncUploadRequest :=
  { contractId := some contract_id,
    documentContent := some (.str (env.sealOps.b64encode contract_content)),
    isBase64 := true,
    signerAddresses := some signer_addresses }

/-- `process_upload(data)`: field check, content decoding, hash; when SEAL
is requested and signer addresses are available (given, or fetched by
email list or contract id), attempt `process_encrypt_and_upload` — an
exception there terminates the process (`exit(1)`), an `encrypted: False`
result falls through to the standard upload, an `encrypted: True` result
is returned augmented; otherwise the standard upload runs directly. -/
def process_upload (env : UploadEnv) (data : UploadRequest) :
    Except PyErr UploadOutcome :=
  match data.contractId, data.contractContent with
  | some contract_id, some content0 =>
    match content_to_bytes env.sealOps.b64decode data.isBase64 content0 with
    | .error e => .error e
    | .ok contract_content =>
      let hash_sha256 := env.sha256hex contract_content
      let use_seal := data.useSeal.getD true
      let signer_addresses := resolve_signer_addresses env data contract_id use_seal
      if use_seal ∧ signer_addresses ≠ [] then
        match process_encrypt_and_upload env.sealOps
            (upload_seal_request env contract_id contract_content signer_addresses) with
        | .error _ => .ok (.processExit 1)
        | .ok seal_response =>
          if seal_response.encrypted then
            .ok (.sealResponse seal_response hash_sha256 signer_addresses
              env.databaseUpdated)
          else
            standard_upload_tail env data contract_id contract_content hash_sha256
      else
        standard_upload_tail env data contract_id contract_content hash_sha256
  | _, _ =>
    .error (.valueError "Missing required fields: contractId and contractContent are required")

/-! ## Concrete inputs used by counterexamples and witnesses -/

/-- A signer address of 66 hex digits: longer than the 64-digit (32-byte)
address width. -/
def addr66 : String := String.mk (List.replicate 66 '0')

/-- A concrete decryption environment used by the witnesses. -/
def decryptEnvW : DecryptEnv :=
  { sealPackageId := none,
    download := fun _ => .ok (),
    runDecrypt := fun _ _ _ => .ok (),
    readDecrypted := .ok [],
    b64encode := fun _ => "" }

/-- A concrete encryption environment with no SEAL package id, for the C5
witness. -/
def encEnvW : EncryptEnv :=
  { sealPackageId := none, keyServerIds := [],
    b64decode := fun _ => none, b64encode := fun _ => "",
    sha256hex := fun _ => "" }

/-- A concrete operations environment with no SEAL package id, shared by
the C8 witness and the C6 counterexample's nested call. -/
def sealOpsEnvW : SealOpsEnv :=
  { sealPackageId := none, adminPrivateKey := none, allowlistPackageId := none,
    network := "testnet", b64decode := fun _ => none, b64encode := fun _ => "",
    runSealOperation := fun _ => .ok "" }

/-- A concrete operations environment whose SEAL operation succeeds with
empty output, for the C7 counterexample. -/
def sealOpsEnvC7 : SealOpsEnv :=
  { sealPackageId := some "0xseal", adminPrivateKey := none,
    allowlistPackageId := none, network := "testnet",
    b64decode := fun _ => none, b64encode := fun _ => "",
    runSealOperation := fun _ => .ok "" }

/-- A concrete operations environment whose SEAL operation prints a blob-id
marker line, for the C7 witness. -/
def sealOpsEnvC7W : SealOpsEnv :=
  { sealOpsEnvC7 with runSealOperation := fun _ => .ok "x\nBlob ID: b9\ny" }

/-- A concrete upload environment whose nested SEAL call is not configured
(so encryption fails with an encrypted-false result) and whose Walrus
upload succeeds, for the C6 counterexample and witness. -/
def uploadEnvC6 : UploadEnv :=
  { sealOps := sealOpsEnvW,
    sha256hex := fun _ => "h",
    fetchWalletAddresses := fun _ _ => [],
    walrusPut := fun _ => .ok { alreadyCertified := some { blobId := some "b1" } },
    databaseUpdated := true }

/-! ## Helper lemmas on the primitives -/

theorem traverseOption_nil {α β : Type} (f : α → Option β) :
    traverseOption f [] = some [] := rfl

theorem traverseOption_cons {α β : Type} (f : α → Option β) (a : α) (as : List α) :
    traverseOption f (a :: as) =
      (f a).bind (fun b => (traverseOption f as).bind (fun bs => some (b :: bs))) := rfl

theorem traverseOption_eq_some_length {α β : Type} (f : α → Option β) :
    ∀ (l : List α) (bs : List β), traverseOption f l = some bs → bs.length = l.length := by
  intro l
  induction l with
  | nil =>
    intro bs h
    rw [traverseOption_nil] at h
    cases h; rfl
  | cons a as ih =>
    intro bs h
    rw [traverseOption_cons] at h
    cases hfa : f a with
    | none => rw [hfa] at h; simp at h
    | some b =>
      rw [hfa] at h
      cases hrec : traverseOption f as with
      | none => rw [hrec] at h; simp at h
      | some bs' =>
        rw [hrec] at h
        simp only [Option.some_bind, Option.some.injEq] at h
        subst h
        simp [ih bs' hrec]

theorem traverseOption_mem {α β : Type} (f : α → Option β) :
    ∀ (l : List α) (bs : List β), traverseOption f l = some bs →
      ∀ b ∈ bs, ∃ a ∈ l, f a = some b := by
  intro l
  induction l with
  | nil =>
    intro bs h
    rw [traverseOption_nil] at h
    cases h
    intro b hb
    simp at hb
  | cons a as ih =>
    intro bs h
    rw [traverseOption_cons] at h
    cases hfa : f a with
    | none => rw [hfa] at h; simp at h
    | some b₀ =>
      rw [hfa] at h
      cases hrec : traverseOption f as with
      | none => rw [hrec] at h; simp at h
      | some bs' =>
        rw [hrec] at h
        simp only [Option.some_bind, Option.some.injEq] at h
        subst h
        intro b hb
        rcases List.mem_cons.mp hb with hb | hb
        · exact ⟨a, List.mem_cons_self a as, by rw [hfa, hb]⟩
        · obtain ⟨a', ha', hfa'⟩ := ih bs' hrec b hb
          exact ⟨a', List.mem_cons_of_mem a ha', hfa'⟩

theorem traverseOption_congr_some {α β : Type} (f g : α → Option β) :
    ∀ (l : List α) (bs : List β), traverseOption f l = some bs →
      (∀ a ∈ l, ∀ b, f a = some b → g a = some b) →
      traverseOption g l = some bs := by
  intro l
  induction l with
  | nil => intro bs h _; exact h
  | cons a as ih =>
    intro bs h hcong
    rw [traverseOption_cons] at h
    rw [traverseOption_cons]
    cases hfa : f a with
    | none => rw [hfa] at h; simp at h
    | some b₀ =>
      rw [hfa] at h
      cases hrec : traverseOption f as with
      | none => rw [hrec] at h; simp at h
      | some bs' =>
        rw [hrec] at h
        simp only [Option.some_bind, Option.some.injEq] at h
        subst h
        rw [hcong a (List.mem_cons_self a as) b₀ hfa,
          ih bs' hrec (fun a' ha' b hb => hcong a' (List.mem_cons_of_mem a ha') b hb)]
        rfl

theorem traverseOption_eq_none_iff {α β : Type} (f : α → Option β) :
    ∀ (l : List α), traverseOption f l = none ↔ ∃ a ∈ l, f a = none := by
  intro l
  induction l with
  | nil => rw [traverseOption_nil]; simp
  | cons a as ih =>
    rw [traverseOption_cons]
    cases hfa : f a with
    | none => simp [hfa]
    | some b₀ =>
      cases hrec : traverseOption f as with
      | none =>
        simp only [Option.some_bind, hrec, Option.none_bind, true_iff]
        obtain ⟨a', ha', hfa'⟩ := ih.mp hrec
        exact ⟨a', List.mem_cons_of_mem a ha', hfa'⟩
      | some bs' =>
        simp only [Option.some_bind, hrec]
        constructor
        · intro h; simp at h
        · rintro ⟨a', ha', hfa'⟩
          rcases List.mem_cons.mp ha' with rfl | ha'
          · rw [hfa] at hfa'; exact absurd hfa' (by simp)
          · have hnone : traverseOption f as = none := ih.mpr ⟨a', ha', hfa'⟩
            rw [hrec] at hnone
            exact absurd hnone (by simp)

theorem traverseOption_isSome_of_forall {α β : Type} (f : α → Option β) :
    ∀ (l : List α), (∀ a ∈ l, (f a).isSome) → ∃ bs, traverseOption f l = some bs := by
  intro l
  induction l with
  | nil => intro _; exact ⟨[], rfl⟩
  | cons a as ih =>
    intro h
    obtain ⟨b, hb⟩ := Option.isSome_iff_exists.mp (h a (List.mem_cons_self a as))
    obtain ⟨bs, hbs⟩ := ih (fun a' ha' => h a' (List.mem_cons_of_mem a ha'))
    refine ⟨b :: bs, ?_⟩
    rw [traverseOption_cons, hb, hbs]
    rfl

theorem hexPairsToBytes_nil : hexPairsToBytes [] = some [] := rfl

theorem hexPairsToBytes_one (c : Char) :
    hexPairsToBytes [c] = if pyIsSpace c then some [] else none := rfl

theorem hexPairsToBytes_cons (c : Char) (rest : List Char) :
    hexPairsToBytes (c :: rest) =
      if pyIsSpace c then hexPairsToBytes rest
      else
        match rest with
        | [] => none
        | c₂ :: rest₂ =>
            (hexVal c).bind (fun top => (hexVal c₂).bind (fun bot =>
              (hexPairsToBytes rest₂).bind (fun tail =>
                some ((16 * top + bot) :: tail)))) := by
  cases rest with
  | nil => rfl
  | cons c₂ rest₂ => rfl

theorem hexPairsToBytes_cons₂ (c₁ c₂ : Char) (rest : List Char) :
    hexPairsToBytes (c₁ :: c₂ :: rest) =
      if pyIsSpace c₁ then hexPairsToBytes (c₂ :: rest)
      else
        (hexVal c₁).bind (fun top => (hexVal c₂).bind (fun bot =>
          (hexPairsToBytes rest).bind (fun tail =>
            some ((16 * top + bot) :: tail)))) := rfl

theorem hexVal_not_space {c : Char} (h : (hexVal c).isSome) :
    pyIsSpace c = false := by
  cases hsp : pyIsSpace c with
  | false => rfl
  | true =>
    exfalso
    simp only [pyIsSpace, decide_eq_true_eq] at hsp
    rcases hsp with rfl | rfl | rfl | rfl | rfl | rfl <;> exact absurd h (by decide)

theorem hexPairsToBytes_accepts : ∀ (cs : List Char) (bs : List Nat),
    hexPairsToBytes cs = some bs → FromHexAccepted cs
  | [], _, _ => .nil
  | [c], bs, h => by
      rw [hexPairsToBytes_one] at h
      cases hsp : pyIsSpace c with
      | true => exact .space hsp .nil
      | false => rw [if_neg (by simp [hsp])] at h; simp at h
  | c₁ :: c₂ :: rest, bs, h => by
      rw [hexPairsToBytes_cons₂] at h
      cases hsp : pyIsSpace c₁ with
      | true =>
        rw [if_pos hsp] at h
        exact .space hsp (hexPairsToBytes_accepts (c₂ :: rest) bs h)
      | false =>
        rw [if_neg (by simp [hsp])] at h
        cases h₁ : hexVal c₁ with
        | none => rw [h₁] at h; simp at h
        | some v₁ =>
          rw [h₁] at h
          cases h₂ : hexVal c₂ with
          | none => rw [h₂] at h; simp at h
          | some v₂ =>
            rw [h₂] at h
            cases h₃ : hexPairsToBytes rest with
            | none => rw [h₃] at h; simp at h
            | some tl =>
              exact .pair (by rw [h₁]; rfl) (by rw [h₂]; rfl)
                (hexPairsToBytes_accepts rest tl h₃)

theorem fromHexAccepted_isSome : ∀ {cs : List Char},
    FromHexAccepted cs → (hexPairsToBytes cs).isSome := by
  intro cs h
  induction h with
  | nil => rfl
  | space hsp _ ih => rw [hexPairsToBytes_cons, if_pos hsp]; exact ih
  | pair h₁ h₂ _ ih =>
    rw [hexPairsToBytes_cons₂, if_neg (by simp [hexVal_not_space h₁])]
    obtain ⟨v₁, hv₁⟩ := Option.isSome_iff_exists.mp h₁
    obtain ⟨v₂, hv₂⟩ := Option.isSome_iff_exists.mp h₂
    obtain ⟨tl, htl⟩ := Option.isSome_iff_exists.mp ih
    rw [hv₁, hv₂, htl]
    rfl

theorem hexPairsToBytes_isSome_iff_accepted (cs : List Char) :
    (hexPairsToBytes cs).isSome ↔ FromHexAccepted cs := by
  constructor
  · intro h
    obtain ⟨bs, hbs⟩ := Option.isSome_iff_exists.mp h
    exact hexPairsToBytes_accepts cs bs hbs
  · exact fromHexAccepted_isSome

theorem hexPairsToBytes_length_of_hex : ∀ (cs : List Char) (bs : List Nat),
    (∀ c ∈ cs, (hexVal c).isSome) → hexPairsToBytes cs = some bs →
      2 * bs.length = cs.length
  | [], bs, _, h => by rw [hexPairsToBytes_nil] at h; cases h; rfl
  | [c], bs, hhex, h => by
      rw [hexPairsToBytes_one,
        if_neg (by simp [hexVal_not_space (hhex c (List.mem_cons_self c []))])] at h
      simp at h
  | c₁ :: c₂ :: rest, bs, hhex, h => by
      rw [hexPairsToBytes_cons₂,
        if_neg (by simp [hexVal_not_space (hhex c₁ (List.mem_cons_self c₁ _))])] at h
      cases h₁ : hexVal c₁ with
      | none => rw [h₁] at h; simp at h
      | some v₁ =>
        rw [h₁] at h
        cases h₂ : hexVal c₂ with
        | none => rw [h₂] at h; simp at h
        | some v₂ =>
          rw [h₂] at h
          cases h₃ : hexPairsToBytes rest with
          | none => rw [h₃] at h; simp at h
          | some tl =>
            rw [h₃] at h
            simp only [Option.some_bind, Option.some.injEq] at h
            subst h
            have hrec := hexPairsToBytes_length_of_hex rest tl
              (fun c hc => hhex c
                (List.mem_cons_of_mem c₁ (List.mem_cons_of_mem c₂ hc))) h₃
            simp only [List.length_cons]
            omega

theorem hexPairsToBytes_isSome_of : ∀ (cs : List Char),
    (∀ c ∈ cs, (hexVal c).isSome) → cs.length % 2 = 0 →
      ∃ bs, hexPairsToBytes cs = some bs
  | [], _, _ => ⟨[], rfl⟩
  | [c], _, hmod => by simp at hmod
  | c₁ :: c₂ :: rest, hall, hmod => by
      obtain ⟨v₁, hv₁⟩ := Option.isSome_iff_exists.mp
        (hall c₁ (List.mem_cons_self c₁ _))
      obtain ⟨v₂, hv₂⟩ := Option.isSome_iff_exists.mp
        (hall c₂ (List.mem_cons_of_mem c₁ (List.mem_cons_self c₂ _)))
      have hmod' : rest.length % 2 = 0 := by
        simp only [List.length_cons] at hmod; omega
      obtain ⟨tl, htl⟩ := hexPairsToBytes_isSome_of rest
        (fun c hc => hall c (List.mem_cons_of_mem c₁ (List.mem_cons_of_mem c₂ hc)))
        hmod'
      refine ⟨(16 * v₁ + v₂) :: tl, ?_⟩
      rw [hexPairsToBytes_cons₂,
        if_neg (by simp [hexVal_not_space (hall c₁ (List.mem_cons_self c₁ _))]),
        hv₁, hv₂, htl]
      rfl

theorem hexVal_not_sign {c : Char} (h : (hexVal c).isSome) : ¬(c = '+' ∨ c = '-') := by
  rintro (rfl | rfl) <;> revert h <;> decide

theorem zfillChars_length_of_le {cs : List Char} {w : Nat} (h : cs.length ≤ w) :
    (zfillChars cs w).length = w := by
  unfold zfillChars
  by_cases hge : cs.length ≥ w
  · rw [if_pos hge]; omega
  · rw [if_neg hge]
    cases cs with
    | nil => simp
    | cons c rest =>
      dsimp only
      by_cases hsign : c = '+' ∨ c = '-'
      · rw [if_pos hsign]
        simp only [List.length_cons, List.length_append, List.length_replicate]
        simp only [List.length_cons] at hge
        omega
      · rw [if_neg hsign]
        simp only [List.length_append, List.length_replicate, List.length_cons]
        simp only [List.length_cons] at hge
        omega

theorem zfillChars_eq_of_hex {cs : List Char} (h64 : cs.length ≤ 64)
    (hhex : ∀ c ∈ cs, (hexVal c).isSome) :
    zfillChars cs 64 = List.replicate (64 - cs.length) '0' ++ cs := by
  unfold zfillChars
  by_cases hge : cs.length ≥ 64
  · rw [if_pos hge]
    have : cs.length = 64 := le_antisymm h64 hge
    rw [this]
    simp
  · rw [if_neg hge]
    cases cs with
    | nil => simp
    | cons c rest =>
      dsimp only
      rw [if_neg (hexVal_not_sign (hhex c (List.mem_cons_self c rest)))]

theorem zfillChars_hex_of_hex {cs : List Char} (h64 : cs.length ≤ 64)
    (hhex : ∀ c ∈ cs, (hexVal c).isSome) :
    ∀ c ∈ zfillChars cs 64, (hexVal c).isSome := by
  rw [zfillChars_eq_of_hex h64 hhex]
  intro c hc
  rcases List.mem_append.mp hc with hc | hc
  · rw [List.eq_of_mem_replicate hc]; rfl
  · exact hhex c hc

theorem addr_to_bytes_isSome_of_le64 {addr : String}
    (hhex : ∀ c ∈ stripped_addr_chars addr, (hexVal c).isSome)
    (h64 : (stripped_addr_chars addr).length ≤ 64) :
    ∃ b, addr_to_bytes addr = some b ∧ b.length = 32 := by
  have hlen : (zfillChars (stripped_addr_chars addr) 64).length = 64 :=
    zfillChars_length_of_le h64
  obtain ⟨b, hb⟩ := hexPairsToBytes_isSome_of _
    (zfillChars_hex_of_hex h64 hhex) (by rw [hlen])
  refine ⟨b, hb, ?_⟩
  have := hexPairsToBytes_length_of_hex _ b (zfillChars_hex_of_hex h64 hhex) hb
  omega

theorem addr_to_bytes_length_of_le64 {addr : String} {b : List Nat}
    (hb : addr_to_bytes addr = some b)
    (hhex : ∀ c ∈ stripped_addr_chars addr, (hexVal c).isSome)
    (h64 : (stripped_addr_chars addr).length ≤ 64) :
    b.length = 32 := by
  have hlen : (zfillChars (stripped_addr_chars addr) 64).length = 64 :=
    zfillChars_length_of_le h64
  have := hexPairsToBytes_length_of_hex _ b (zfillChars_hex_of_hex h64 hhex) hb
  omega

theorem packU32LE_isSome_of_lt {n : Nat} (h : n < 4294967296) :
    ∃ p, packU32LE n = some p ∧ p.length = 4 := by
  refine ⟨[n % 256, n / 256 % 256, n / 65536 % 256, n / 16777216 % 256], ?_, rfl⟩
  unfold packU32LE
  rw [if_pos h]

theorem hexPairsToBytes_eq_none_iff (cs : List Char) :
    hexPairsToBytes cs = none ↔ ¬ FromHexAccepted cs := by
  constructor
  · intro hnone hacc
    have h := fromHexAccepted_isSome hacc
    rw [hnone] at h
    simp at h
  · intro hnacc
    cases hcs : hexPairsToBytes cs with
    | none => rfl
    | some bs => exact absurd (hexPairsToBytes_accepts cs bs hcs) hnacc

theorem addr_to_bytes_eq_none_iff (addr : String) :
    addr_to_bytes addr = none ↔
      ¬ FromHexAccepted (zfillChars (stripped_addr_chars addr) 64) := by
  unfold addr_to_bytes
  exact hexPairsToBytes_eq_none_iff _

theorem contract_id_to_bytes_eq_none_iff (cid : String) :
    contract_id_to_bytes cid = none ↔
      ("0x".data.isPrefixOf cid.data ∧
        ¬ FromHexAccepted (cid.data.drop 2)) := by
  unfold contract_id_to_bytes
  cases hpre : "0x".data.isPrefixOf cid.data with
  | false => simp [hpre]
  | true => simp [hpre, hexPairsToBytes_eq_none_iff]

theorem flatten_length_of_const {α : Type} :
    ∀ (ls : List (List α)) (k : Nat),
      (∀ b ∈ ls, b.length = k) → ls.flatten.length = k * ls.length := by
  intro ls k
  induction ls with
  | nil => intro _; simp
  | cons b bs ih =>
    intro h
    simp only [List.flatten_cons, List.length_append, List.length_cons]
    rw [h b (List.mem_cons_self b bs),
      ih (fun x hx => h x (List.mem_cons_of_mem b hx))]
    ring

theorem create_bcs_identity_def (cid : String) (addrs : List String) :
    create_bcs_identity cid addrs =
      (contract_id_to_bytes cid).bind (fun cb =>
        (packU32LE cb.length).bind (fun lenPrefix =>
          (packU32LE addrs.length).bind (fun countPrefix =>
            (traverseOption addr_to_bytes addrs).bind (fun blocks =>
              some (lenPrefix ++ cb ++ countPrefix ++ blocks.flatten,
                { contract_id := cid,
                  signer_count := addrs.length,
                  format := "BCS [vector<u8> contract_id][vector<address> signer_addresses]" }))))) :=
  rfl

theorem claim_bcs_identity_def (cid : String) (addrs : List String) :
    claim_bcs_identity cid addrs =
      (contract_id_to_bytes cid).bind (fun cb =>
        (packU32LE cb.length).bind (fun lenPrefix =>
          (packU32LE addrs.length).bind (fun countPrefix =>
            (traverseOption claim_address32 addrs).bind (fun blocks =>
              some (lenPrefix ++ cb ++ countPrefix ++ blocks.flatten))))) :=
  rfl

/-! ## Claims C1, C2, C3, C10 — `create_bcs_identity` -/

/-- C1 (counterexample): the claimed format does not hold for every signer
address list.  For contract id `"c"` and the single 66-hex-digit address
`addr66`, `create_bcs_identity` produces an identity (the address is
hex-decoded to 33 bytes), yet no identity of the claimed shape — with the
address as exactly 32 bytes — exists for these inputs. -/
theorem C1_claimed_format_counterexample :
    ¬ (∀ (out : List Nat) (info : SignerInfo),
        create_bcs_identity "c" [addr66] = some (out, info) →
        claim_bcs_identity "c" [addr66] = some out) := by
  intro hclaim
  obtain ⟨⟨out, info⟩, hsome⟩ := Option.isSome_iff_exists.mp
    (by decide : (create_bcs_identity "c" [addr66]).isSome)
  have h := hclaim out info hsome
  rw [(by decide : claim_bcs_identity "c" [addr66] = none)] at h
  exact Option.noConfusion h

/-- C1 (amended): provided every signer address consists, after stripping
an optional `0x` prefix, of at most 64 hex digits and nothing else (in
particular no whitespace, which `bytes.fromhex` would skip, yielding fewer
than 32 bytes), the identity produced by `create_bcs_identity` is exactly
the claimed length-prefixed concatenation — the contract-id bytes preceded
by their 4-byte little-endian length, the address count as a 4-byte
little-endian integer, then each address as exactly 32 bytes with no
per-address length prefix. -/
theorem create_bcs_identity_matches_claimed_format :
    ∀ (cid : String) (addrs : List String) (out : List Nat) (info : SignerInfo),
      (∀ a ∈ addrs, (∀ c ∈ stripped_addr_chars a, (hexVal c).isSome) ∧
        (stripped_addr_chars a).length ≤ 64) →
      create_bcs_identity cid addrs = some (out, info) →
      claim_bcs_identity cid addrs = some out := by
  intro cid addrs out info h64 h
  rw [create_bcs_identity_def] at h
  cases hcb : contract_id_to_bytes cid with
  | none => rw [hcb] at h; simp at h
  | some cb =>
    rw [hcb] at h
    simp only [Option.some_bind] at h
    cases hlen : packU32LE cb.length with
    | none => rw [hlen] at h; simp at h
    | some lenP =>
      rw [hlen] at h
      simp only [Option.some_bind] at h
      cases hcount : packU32LE addrs.length with
      | none => rw [hcount] at h; simp at h
      | some countP =>
        rw [hcount] at h
        simp only [Option.some_bind] at h
        cases htrav : traverseOption addr_to_bytes addrs with
        | none => rw [htrav] at h; simp at h
        | some blocks =>
          rw [htrav] at h
          simp only [Option.some_bind, Option.some.injEq, Prod.mk.injEq] at h
          obtain ⟨hout, _⟩ := h
          have htrav' : traverseOption claim_address32 addrs = some blocks := by
            refine traverseOption_congr_some addr_to_bytes claim_address32 addrs blocks htrav ?_
            intro a ha b hb
            have h32 : b.length = 32 :=
              addr_to_bytes_length_of_le64 hb (h64 a ha).1 (h64 a ha).2
            unfold claim_address32
            rw [hb]
            simp [h32]
          rw [claim_bcs_identity_def, hcb]
          simp only [Option.some_bind]
          rw [hlen]
          simp only [Option.some_bind]
          rw [hcount]
          simp only [Option.some_bind]
          rw [htrav']
          simp only [Option.some_bind, Option.some.injEq]
          exact hout

/-- C1 (witness): a concrete 4-hex-digit contract id and single address. -/
theorem C1_claimed_format_witness :
    claim_bcs_identity "0x0a" ["0xff"] =
      some ([1, 0, 0, 0, 10, 1, 0, 0, 0] ++ List.replicate 31 0 ++ [255]) :=
  create_bcs_identity_matches_claimed_format "0x0a" ["0xff"]
    ([1, 0, 0, 0, 10, 1, 0, 0, 0] ++ List.replicate 31 0 ++ [255])
    { contract_id := "0x0a", signer_count := 1,
      format := "BCS [vector<u8> contract_id][vector<address> signer_addresses]" }
    (by decide) (by decide)

/-- C2: identity derivation is deterministic — two calls of
`create_bcs_identity` with identical contract id and identical
signer-address list produce byte-identical output (the embedding is a pure
function of exactly these two inputs: it reads no environment and draws no
randomness). -/
theorem create_bcs_identity_deterministic :
    ∀ (cid₁ cid₂ : String) (addrs₁ addrs₂ : List String),
      cid₁ = cid₂ → addrs₁ = addrs₂ →
      create_bcs_identity cid₁ addrs₁ = create_bcs_identity cid₂ addrs₂ := by
  intro cid₁ cid₂ addrs₁ addrs₂ h₁ h₂
  rw [h₁, h₂]

/-- C2 (witness): determinism at a concrete input. -/
theorem C2_deterministic_witness :
    create_bcs_identity "0x0a" ["0xff"] = create_bcs_identity "0x0a" ["0xff"] :=
  create_bcs_identity_deterministic "0x0a" "0x0a" ["0xff"] ["0xff"] rfl rfl

/-- C3 (counterexample): there is no length bound that identity derivation
enforces.  The 4-character contract id `"0xzz"` — within any plausible
bound — makes derivation fail (invalid hex), while the 66-hex-digit
address `addr66` — beyond the 64-digit address width — is accepted and
encoded rather than rejected with an error. -/
theorem C3_length_bound_counterexample :
    create_bcs_identity "0xzz" [] = none ∧
      (create_bcs_identity "c" [addr66]).isSome = true := by
  exact ⟨by decide, by decide⟩

/-- C3 (amended): `create_bcs_identity` enforces no length bound and has no
`InvalidInputError`.  Assuming the two `u32` length fields do not overflow,
derivation fails exactly when a `0x`-prefixed contract id, or some signer
address after `0x`-stripping and zero-filling to 64 characters, is not of
the form `bytes.fromhex` accepts — an interleaving of ASCII-whitespace runs
and immediately adjacent hex-digit pairs (in particular derivation never
fails merely because an address exceeds 64 digits). -/
theorem create_bcs_identity_failure_characterization :
    ∀ (cid : String) (addrs : List String),
      ((contract_id_to_bytes cid).getD []).length < 4294967296 →
      addrs.length < 4294967296 →
      (create_bcs_identity cid addrs = none ↔
        ("0x".data.isPrefixOf cid.data ∧
          ¬ FromHexAccepted (cid.data.drop 2))
        ∨ ∃ a ∈ addrs,
            ¬ FromHexAccepted (zfillChars (stripped_addr_chars a) 64)) := by
  intro cid addrs hcid32 haddrs32
  rw [← contract_id_to_bytes_eq_none_iff]
  have haddr : (∃ a ∈ addrs,
      ¬ FromHexAccepted (zfillChars (stripped_addr_chars a) 64)) ↔
      traverseOption addr_to_bytes addrs = none := by
    rw [traverseOption_eq_none_iff]
    constructor
    · rintro ⟨a, ha, hv⟩
      exact ⟨a, ha, (addr_to_bytes_eq_none_iff a).mpr hv⟩
    · rintro ⟨a, ha, hv⟩
      exact ⟨a, ha, (addr_to_bytes_eq_none_iff a).mp hv⟩
  rw [haddr, create_bcs_identity_def]
  cases hcb : contract_id_to_bytes cid with
  | none => simp
  | some cb =>
    rw [hcb] at hcid32
    simp only [Option.getD_some] at hcid32
    obtain ⟨p1, hp1, _⟩ := packU32LE_isSome_of_lt hcid32
    obtain ⟨p2, hp2, _⟩ := packU32LE_isSome_of_lt haddrs32
    simp only [Option.some_bind, hp1, hp2]
    cases htrav : traverseOption addr_to_bytes addrs with
    | none => simp
    | some blocks => simp

/-- C3 (witness): a short all-invalid-hex address makes derivation fail, by
the amended characterization. -/
theorem C3_failure_witness : create_bcs_identity "0x0a" ["zz"] = none := by
  have h := create_bcs_identity_failure_characterization "0x0a" ["zz"]
    (by decide) (by decide)
  refine h.mpr (Or.inr ⟨"zz", by decide, fun hacc => ?_⟩)
  have hs := fromHexAccepted_isSome hacc
  rw [(by decide :
    hexPairsToBytes (zfillChars (stripped_addr_chars "zz") 64) = none)] at hs
  simp at hs

/-- C10: a signer address whose stripped hex representation has at most 64
hex digits is zero-filled and encoded as exactly 32 bytes rather than
rejected, so the identity has total length
`8 + (contract-id byte length) + 32 · (number of addresses)`. -/
theorem create_bcs_identity_length :
    ∀ (cid : String) (addrs : List String) (cb : List Nat),
      contract_id_to_bytes cid = some cb →
      cb.length < 4294967296 →
      addrs.length < 4294967296 →
      (∀ a ∈ addrs, (∀ c ∈ stripped_addr_chars a, (hexVal c).isSome) ∧
        (stripped_addr_chars a).length ≤ 64) →
      ∃ out info, create_bcs_identity cid addrs = some (out, info) ∧
        out.length = 8 + cb.length + 32 * addrs.length := by
  intro cid addrs cb hcb hcb32 haddrs32 hva
  have hall : ∀ a ∈ addrs, (addr_to_bytes a).isSome := by
    intro a ha
    obtain ⟨b, hb, _⟩ := addr_to_bytes_isSome_of_le64 (hva a ha).1 (hva a ha).2
    rw [hb]; rfl
  obtain ⟨blocks, hblocks⟩ := traverseOption_isSome_of_forall addr_to_bytes addrs hall
  have hlenb : blocks.length = addrs.length :=
    traverseOption_eq_some_length addr_to_bytes addrs blocks hblocks
  have hblock32 : ∀ b ∈ blocks, b.length = 32 := by
    intro b hb
    obtain ⟨a, ha, hab⟩ := traverseOption_mem addr_to_bytes addrs blocks hblocks b hb
    exact addr_to_bytes_length_of_le64 hab (hva a ha).1 (hva a ha).2
  have hflat : blocks.flatten.length = 32 * addrs.length := by
    rw [flatten_length_of_const blocks 32 hblock32, hlenb]
  obtain ⟨p1, hp1, hp1len⟩ := packU32LE_isSome_of_lt hcb32
  obtain ⟨p2, hp2, hp2len⟩ := packU32LE_isSome_of_lt haddrs32
  refine ⟨p1 ++ cb ++ p2 ++ blocks.flatten,
    { contract_id := cid, signer_count := addrs.length,
      format := "BCS [vector<u8> contract_id][vector<address> signer_addresses]" },
    ?_, ?_⟩
  · rw [create_bcs_identity_def, hcb]
    simp only [Option.some_bind]
    rw [hp1]
    simp only [Option.some_bind]
    rw [hp2]
    simp only [Option.some_bind]
    rw [hblocks]
    simp only [Option.some_bind]
  · simp only [List.length_append, hp1len, hp2len, hflat]
    omega

/-- C10 (witness): contract id of one byte and one short address give an
identity of 41 bytes. -/
theorem C10_length_witness :
    (create_bcs_identity "0x0a" ["0xff"]).map (fun p => p.1.length) = some 41 := by
  obtain ⟨out, info, hc, hlen⟩ := create_bcs_identity_length "0x0a" ["0xff"] [10]
    (by decide) (by decide) (by decide) (by decide)
  rw [hc]
  simp [hlen]

/-! ## Claims C4, C9 — `process_decrypt` and `decrypt_document` -/

/-- C4: for every decryption request, failure at any step yields a response
with `decrypted` false, a message, and no plaintext; the
`decryptedDocument` field is present only when `decrypted` is true. -/
theorem process_decrypt_no_partial_plaintext :
    ∀ (env : DecryptEnv) (data : DecryptRequest) (r : DecryptResponse),
      process_decrypt env data = .ok r →
      ((r.decrypted = false → r.decryptedDocument = none ∧ r.message.isSome) ∧
       (r.decryptedDocument.isSome → r.decrypted = true)) := by
  intro env data r h
  unfold process_decrypt at h
  repeat' split at h
  all_goals first
    | (cases h; simp)
    | simp at h

/-- C4 (witness): the not-configured failure response carries no plaintext
and does carry a message. -/
theorem C4_no_plaintext_witness :
    ({ decrypted := false, message := some "SEAL decryption not configured" } :
      DecryptResponse).decryptedDocument = none ∧
    ({ decrypted := false, message := some "SEAL decryption not configured" } :
      DecryptResponse).message.isSome = true :=
  (process_decrypt_no_partial_plaintext decryptEnvW
    { blobId := some "b", userAddress := some "u", signature := some "s",
      allowlistId := some "a", documentId := some "d" }
    { decrypted := false, message := some "SEAL decryption not configured" }
    rfl).1 rfl

/-- C9: when the supplied signature is non-empty, the generated decryption
script uses the signature-based session (and is independent of any
supplied private key); the private-key path is taken exactly when the
signature is empty. -/
theorem decrypt_document_signature_precedence :
    ∀ (env : DecryptEnv) (ua sig al doc : String) (upk upk' : Option String),
      (sig ≠ "" →
        decrypt_document_auth ua sig upk = .signatureSession ua sig ∧
        decrypt_document env ua sig al doc upk =
          decrypt_document env ua sig al doc upk') ∧
      (sig = "" →
        decrypt_document_auth ua sig upk = .privateKeyKeypair (pyReprOptStr upk)) := by
  intro env ua sig al doc upk upk'
  have hauth : ∀ (u : Option String), sig ≠ "" →
      decrypt_document_auth ua sig u = .signatureSession ua sig := by
    intro u hne
    unfold decrypt_document_auth
    simp [hne]
  constructor
  · intro hne
    refine ⟨hauth upk hne, ?_⟩
    unfold decrypt_document
    rw [hauth upk hne, hauth upk' hne]
  · intro heq
    subst heq
    unfold decrypt_document_auth
    simp

/-- C9 (witness): with both a signature and a private key supplied, the
signature session is selected. -/
theorem C9_signature_precedence_witness :
    decrypt_document_auth "0xuser" "sig1" (some "privkey") =
      .signatureSession "0xuser" "sig1" :=
  ((decrypt_document_signature_precedence decryptEnvW "0xuser" "sig1" "al" "doc"
    (some "privkey") (some "otherkey")).1 (by decide)).1

/-! ## Claims C5, C7, C8 — encryption orchestration -/

/-- C5: if encryption is unavailable — SEAL package id not configured, or
no key servers — the encryption operation returns an explicit,
distinguishable non-encrypted result (an ordinary return, not a raised
exception); the not-configured branch of `process_encrypt_and_upload`
behaves the same way. -/
theorem encryption_unavailable_explicit_result :
    (∀ (env : EncryptEnv) (data : EncryptRequest) (cid : String) (dc : PyContent),
      data.contractId = some cid → data.documentContent = some dc →
      pyTruthyOptStr env.sealPackageId = false →
      process_encryption env data =
        .ok { encrypted := false, message := some "SEAL encryption not configured" }) ∧
    (∀ (env : EncryptEnv) (data : EncryptRequest) (cid : String) (dc : PyContent)
        (cb : List Nat),
      data.contractId = some cid → data.documentContent = some dc →
      pyTruthyOptStr env.sealPackageId = true →
      content_to_bytes env.b64decode data.isBase64 dc = .ok cb →
      env.keyServerIds = [] →
      process_encryption env data =
        .ok { encrypted := false, message := some "No SEAL key servers available" }) ∧
    (∀ (env : SealOpsEnv) (data : EncUploadRequest) (cid : String) (dc : PyContent)
        (sas : List String),
      data.contractId = some cid → data.documentContent = some dc →
      data.signerAddresses = some sas →
      pyTruthyOptStr env.sealPackageId = false →
      process_encrypt_and_upload env data =
        .ok { encrypted := false, message := some "SEAL encryption not configured" }) ∧
    ("SEAL encryption not configured" ≠ "No SEAL key servers available") := by
  refine ⟨?_, ?_, ?_, by decide⟩
  · intro env data cid dc hcid hdc hpkg
    unfold process_encryption
    rw [hcid, hdc]
    dsimp only
    rw [if_pos (by simp [hpkg])]
  · intro env data cid dc cb hcid hdc hpkg hcb hks
    unfold process_encryption
    rw [hcid, hdc]
    dsimp only
    rw [if_neg (by simp [hpkg]), hcb]
    dsimp only
    rw [if_pos (by simp [get_key_server_ids, hks])]
  · intro env data cid dc sas hcid hdc hsas hpkg
    unfold process_encrypt_and_upload
    rw [hcid, hdc, hsas]
    dsimp only
    rw [if_pos (by simp [hpkg])]

/-- C5 (witness): with no package id configured, the concrete result is the
explicit non-encrypted response. -/
theorem C5_unavailable_witness :
    process_encryption encEnvW
      { contractId := some "c1", documentContent := some (.str "doc") } =
      .ok { encrypted := false, message := some "SEAL encryption not configured" } :=
  encryption_unavailable_explicit_result.1 encEnvW
    { contractId := some "c1", documentContent := some (.str "doc") }
    "c1" (.str "doc") rfl rfl rfl

theorem content_to_bytes_error_msg {f : PyContent → Option (List Nat)}
    {is_b64 : Bool} {dc : PyContent} {e : PyErr}
    (h : content_to_bytes f is_b64 dc = .error e) :
    e = .valueError "Invalid base64 content" := by
  unfold content_to_bytes at h
  repeat' split at h
  all_goals first
    | (cases h; rfl)
    | simp at h

/-- C8: `process_encrypt_and_upload` raises the missing-required-fields
`ValueError` — identically for every environment, hence before any
encryption or upload work — exactly when one of `contractId`,
`documentContent`, `signerAddresses` is absent; with all three present that
error is never raised. -/
theorem process_encrypt_and_upload_required_fields :
    (∀ (env : SealOpsEnv) (data : EncUploadRequest),
      (data.contractId = none ∨ data.documentContent = none ∨
        data.signerAddresses = none) →
      process_encrypt_and_upload env data =
        .error (.valueError
          "Missing required fields: contractId, documentContent, and signerAddresses are required")) ∧
    (∀ (env : SealOpsEnv) (data : EncUploadRequest) (cid : String)
        (dc : PyContent) (sas : List String),
      data.contractId = some cid → data.documentContent = some dc →
      data.signerAddresses = some sas →
      process_encrypt_and_upload env data ≠
        .error (.valueError
          "Missing required fields: contractId, documentContent, and signerAddresses are required")) := by
  constructor
  · intro env data h
    unfold process_encrypt_and_upload
    cases hc : data.contractId <;> cases hd : data.documentContent <;>
      cases hs : data.signerAddresses <;> simp_all
  · intro env data cid dc sas hcid hdc hsas hcontra
    unfold process_encrypt_and_upload at hcontra
    rw [hcid, hdc, hsas] at hcontra
    dsimp only at hcontra
    repeat' split at hcontra
    all_goals try simp at hcontra
    case _ e heq =>
      rw [content_to_bytes_error_msg heq] at hcontra
      exact absurd hcontra (by decide)

/-- C8 (witness): an empty request raises the missing-fields error. -/
theorem C8_required_fields_witness :
    process_encrypt_and_upload sealOpsEnvW {} =
      .error (.valueError
        "Missing required fields: contractId, documentContent, and signerAddresses are required") :=
  process_encrypt_and_upload_required_fields.1 sealOpsEnvW {} (Or.inl rfl)

/-- C7 (counterexample): when the SEAL operation's output contains no id
marker lines, `process_encrypt_and_upload` still returns a success
(encrypted true) response, with `blobId`, `allowlistId`, `documentId` and
`capId` all null — contradicting the claim that a success response carries
them all non-null. -/
theorem C7_success_nonnull_counterexample :
    process_encrypt_and_upload sealOpsEnvC7
      { contractId := some "c1", documentContent := some (.str "doc"),
        signerAddresses := some ["0xa"] } =
      .ok { encrypted := true, message := some "SEAL encryption succeeded",
            contractId := some "c1", blobId := none, allowlistId := none,
            documentId := none, capId := none, raw_success := some true } := by
  rfl

theorem extractLine_blobId (st : ExtractedIds) (l : String) :
    (extractLine st l).blobId = st.blobId ∨ pyIn "Blob ID:" l = true := by
  unfold extractLine
  split
  · right; assumption
  · split
    · left; rfl
    · split
      · left; rfl
      · split
        · left; rfl
        · left; rfl

theorem extractLine_allowlistId (st : ExtractedIds) (l : String) :
    (extractLine st l).allowlistId = st.allowlistId ∨
      pyIn "Allowlist ID:" l = true := by
  unfold extractLine
  split
  · left; rfl
  · split
    · right; assumption
    · split
      · left; rfl
      · split
        · left; rfl
        · left; rfl

theorem extractLine_documentId (st : ExtractedIds) (l : String) :
    (extractLine st l).documentId = st.documentId ∨
      (pyIn "Document ID:" l = true ∨ pyIn "Document ID (hex):" l = true) := by
  unfold extractLine
  split
  · left; rfl
  · split
    · left; rfl
    · split
      · right; assumption
      · split
        · left; rfl
        · left; rfl

theorem extractLine_capId (st : ExtractedIds) (l : String) :
    (extractLine st l).capId = st.capId ∨
      (pyIn "Capability ID:" l = true ∨ pyIn "Cap ID:" l = true) := by
  unfold extractLine
  split
  · left; rfl
  · split
    · left; rfl
    · split
      · left; rfl
      · split
        · right; assumption
        · left; rfl

theorem foldl_extractLine_proj (proj : ExtractedIds → Option String)
    (P : String → Prop)
    (hstep : ∀ st l, proj (extractLine st l) = proj st ∨ P l) :
    ∀ (lines : List String) (st : ExtractedIds),
      (proj (lines.foldl extractLine st)).isSome →
      (proj st).isSome ∨ ∃ l ∈ lines, P l := by
  intro lines
  induction lines with
  | nil => intro st h; exact Or.inl h
  | cons a as ih =>
    intro st h
    rw [List.foldl_cons] at h
    rcases ih (extractLine st a) h with h' | ⟨l, hl, hPl⟩
    · rcases hstep st a with heq | hP
      · rw [heq] at h'
        exact Or.inl h'
      · exact Or.inr ⟨a, List.mem_cons_self a as, hP⟩
    · exact Or.inr ⟨l, List.mem_cons_of_mem a hl, hPl⟩

theorem process_encrypt_and_upload_success_eq
    (env : SealOpsEnv) (data : EncUploadRequest) (cid : String) (dc : PyContent)
    (sas : List String) (cb : List Nat) (stdout : String)
    (hcid : data.contractId = some cid) (hdc : data.documentContent = some dc)
    (hsas : data.signerAddresses = some sas)
    (hpkg : pyTruthyOptStr env.sealPackageId = true)
    (hcb : content_to_bytes env.b64decode data.isBase64 dc = .ok cb)
    (hrun : env.runSealOperation (build_seal_config env cid cb sas) = .ok stdout) :
    process_encrypt_and_upload env data =
      .ok { contractId := some cid,
            encrypted := true,
            blobId := (extract_ids (pySplit stdout "\n")).blobId,
            allowlistId := (extract_ids (pySplit stdout "\n")).allowlistId,
            documentId := (extract_ids (pySplit stdout "\n")).documentId,
            capId := (extract_ids (pySplit stdout "\n")).capId,
            raw_success := some true,
            message := some "SEAL encryption succeeded" } := by
  unfold process_encrypt_and_upload
  rw [hcid, hdc, hsas]
  dsimp only
  rw [if_neg (by simp [hpkg]), hcb]
  dsimp only
  rw [hrun]

/-- C7 (amended): a success (encrypted true) response carries the four id
fields, but each is non-null only if the SEAL operation's output contains a
line with the corresponding marker; with no marker lines in the output they
are all null. -/
theorem process_encrypt_and_upload_ids_from_markers :
    ∀ (env : SealOpsEnv) (data : EncUploadRequest) (cid : String) (dc : PyContent)
      (sas : List String) (cb : List Nat) (stdout : String) (r : EncUploadResponse),
      data.contractId = some cid → data.documentContent = some dc →
      data.signerAddresses = some sas →
      pyTruthyOptStr env.sealPackageId = true →
      content_to_bytes env.b64decode data.isBase64 dc = .ok cb →
      env.runSealOperation (build_seal_config env cid cb sas) = .ok stdout →
      process_encrypt_and_upload env data = .ok r →
      (r.encrypted = true ∧
       (r.blobId.isSome → ∃ l ∈ pySplit stdout "\n", pyIn "Blob ID:" l = true) ∧
       (r.allowlistId.isSome →
         ∃ l ∈ pySplit stdout "\n", pyIn "Allowlist ID:" l = true) ∧
       (r.documentId.isSome → ∃ l ∈ pySplit stdout "\n",
          (pyIn "Document ID:" l = true ∨ pyIn "Document ID (hex):" l = true)) ∧
       (r.capId.isSome → ∃ l ∈ pySplit stdout "\n",
          (pyIn "Capability ID:" l = true ∨ pyIn "Cap ID:" l = true))) := by
  intro env data cid dc sas cb stdout r hcid hdc hsas hpkg hcb hrun h
  rw [process_encrypt_and_upload_success_eq env data cid dc sas cb stdout
    hcid hdc hsas hpkg hcb hrun] at h
  cases h
  refine ⟨rfl, ?_, ?_, ?_, ?_⟩
  · intro hs
    rcases foldl_extractLine_proj ExtractedIds.blobId _
      extractLine_blobId (pySplit stdout "\n") {} hs with h' | h'
    · simp at h'
    · exact h'
  · intro hs
    rcases foldl_extractLine_proj ExtractedIds.allowlistId _
      extractLine_allowlistId (pySplit stdout "\n") {} hs with h' | h'
    · simp at h'
    · exact h'
  · intro hs
    rcases foldl_extractLine_proj ExtractedIds.documentId _
      extractLine_documentId (pySplit stdout "\n") {} hs with h' | h'
    · simp at h'
    · exact h'
  · intro hs
    rcases foldl_extractLine_proj ExtractedIds.capId _
      extractLine_capId (pySplit stdout "\n") {} hs with h' | h'
    · simp at h'
    · exact h'

/-- C7 (witness): with a marker line in the output, the non-null blob id is
explained by that line. -/
theorem C7_ids_witness :
    ∃ l ∈ (pySplit "x\nBlob ID: b9\ny" "\n"), pyIn "Blob ID:" l = true := by
  have h := process_encrypt_and_upload_ids_from_markers sealOpsEnvC7W
    { contractId := some "c1", documentContent := some (.str "doc"),
      signerAddresses := some ["0xa"] }
    "c1" (.str "doc") ["0xa"] (pyUtf8 "doc") "x\nBlob ID: b9\ny"
    { encrypted := true, message := some "SEAL encryption succeeded",
      contractId := some "c1", blobId := some "b9", allowlistId := none,
      documentId := none, capId := none, raw_success := some true }
    rfl rfl rfl rfl rfl rfl (by rfl)
  exact h.2.1 (by rfl)

/-! ## Claim C6 — `process_upload` fallback -/

/-- C6 (counterexample): the upload request carries no fallback opt-in field
at all (the handler reads none), SEAL encryption fails with an
encrypted-false result, and `process_upload` still performs the standard
unencrypted upload — contradicting the claim that the unencrypted fallback
requires an explicit caller opt-in. -/
theorem C6_fallback_counterexample :
    process_upload uploadEnvC6
      { contractId := some "c1", contractContent := some (.str "doc"),
        signerAddresses := some ["0xa"] } =
      .ok (.standardResponse "c1" "h"
        { alreadyCertified := some { blobId := some "b1" } } (some "b1")
        ["0xa"] (some true)) := by
  rfl

/-- C6 (amended): the fallback is unconditional.  For every upload request
(whatever fields it carries) for which SEAL encryption is attempted and
returns a non-encrypted result, `process_upload` performs the standard
unencrypted upload; when the encryption call raises, the process exits
with code 1 instead. -/
theorem process_upload_unconditional_fallback :
    (∀ (env : UploadEnv) (data : UploadRequest) (cid : String) (c0 : PyContent)
        (cc : List Nat) (resp : EncUploadResponse) (raw : WalrusRawResponse),
      data.contractId = some cid → data.contractContent = some c0 →
      content_to_bytes env.sealOps.b64decode data.isBase64 c0 = .ok cc →
      data.useSeal.getD true = true →
      resolve_signer_addresses env data cid true ≠ [] →
      process_encrypt_and_upload env.sealOps
        (upload_seal_request env cid cc (resolve_signer_addresses env data cid true)) =
        .ok resp →
      resp.encrypted = false →
      env.walrusPut cc = .ok raw →
      process_upload env data =
        .ok (.standardResponse cid (env.sha256hex cc) raw (extract_blob_id raw)
          (data.signerAddresses.getD [])
          (if pyTruthyOptStr (extract_blob_id raw) then some env.databaseUpdated
           else none))) ∧
    (∀ (env : UploadEnv) (data : UploadRequest) (cid : String) (c0 : PyContent)
        (cc : List Nat) (e : PyErr),
      data.contractId = some cid → data.contractContent = some c0 →
      content_to_bytes env.sealOps.b64decode data.isBase64 c0 = .ok cc →
      data.useSeal.getD true = true →
      resolve_signer_addresses env data cid true ≠ [] →
      process_encrypt_and_upload env.sealOps
        (upload_seal_request env cid cc (resolve_signer_addresses env data cid true)) =
        .error e →
      process_upload env data = .ok (.processExit 1)) := by
  constructor
  · intro env data cid c0 cc resp raw hcid hc0 hcc huse haddrs hseal hresp hput
    unfold process_upload
    rw [hcid, hc0]
    dsimp only
    rw [hcc]
    dsimp only
    rw [huse, if_pos ⟨rfl, haddrs⟩, hseal]
    dsimp only
    rw [if_neg (by simp [hresp])]
    unfold standard_upload_tail
    rw [hput]
    dsimp only
    by_cases hblob : pyTruthyOptStr (extract_blob_id raw) = true
    · rw [if_pos hblob, if_pos hblob]
    · rw [if_neg hblob, if_neg hblob]
  · intro env data cid c0 cc e hcid hc0 hcc huse haddrs hseal
    unfold process_upload
    rw [hcid, hc0]
    dsimp only
    rw [hcc]
    dsimp only
    rw [huse, if_pos ⟨rfl, haddrs⟩, hseal]

/-- C6 (witness): a second concrete request with an explicit useSeal flag,
run through the amended fallback theorem. -/
theorem C6_fallback_witness :
    process_upload uploadEnvC6
      { contractId := some "c2", contractContent := some (.str "x"),
        useSeal := some true, signerAddresses := some ["0xb"] } =
      .ok (.standardResponse "c2" "h"
        { alreadyCertified := some { blobId := some "b1" } } (some "b1")
        ["0xb"] (some true)) :=
  process_upload_unconditional_fallback.1 uploadEnvC6
    { contractId := some "c2", contractContent := some (.str "x"),
      useSeal := some true, signerAddresses := some ["0xb"] }
    "c2" (.str "x") (pyUtf8 "x")
    { encrypted := false, message := some "SEAL encryption not configured" }
    { alreadyCertified := some { blobId := some "b1" } }
    rfl rfl rfl rfl (by decide) rfl rfl rfl
